import Mathlib

/-
A verification development for `backend/src/tasks/lightning/sync-tasks/funding-tx-fetcher.ts`
(class `FundingTxFetcher`).

Modelling conventions (shallow embedding):
* JavaScript strings are modelled as `List Char` (abbreviated `Str`).
* JS numbers used as timestamps / amounts / clock readings are modelled as `ℚ`;
  integer-valued quantities (block heights, indices, counters) as `Nat`/`Int`.
* A thrown JS exception is modelled as `Except.error ()`; RPC collaborators are
  a record of functions returning `Except Unit _`.
* Plain-object maps (`{}`) are modelled as association lists with exact key
  matching (the prototype chain of JS objects is not modelled).
* JS array indexing `arr[s]` with a string subscript returns an element exactly
  when `s` is the canonical decimal numeral of an index; this is modelled by
  `jsArrayGet`.  `parseInt(s, 10)` is modelled by `parseIntJS`.
* `Math.round` is modelled by `roundJS` (round half up).
* `Common.channelIntegerIdToShortId` and `config.LIGHTNING.LOGGER_UPDATE_INTERVAL`
  are external collaborators, modelled as parameters of the environment.
-/

namespace FundingTxFetcher

abbrev Str := List Char

/-- Decimal digit test, `'0' ≤ c ≤ '9'`. -/
def isDigitB (c : Char) : Bool := '0' ≤ c && c ≤ '9'

/-- Accumulate the maximal leading run of decimal digits (JS `parseInt` body). -/
def digitsToNatAux : Nat → List Char → Nat
  | acc, [] => acc
  | acc, c :: cs => if isDigitB c then digitsToNatAux (acc * 10 + (c.toNat - 48)) cs else acc

/-- Parse a maximal nonempty leading digit run; `none` when the first char is not a digit. -/
def parsePrefixNat : List Char → Option Nat
  | [] => none
  | c :: cs => if isDigitB c then some (digitsToNatAux (c.toNat - 48) cs) else none

/-- JS `parseInt(s, 10)`: skip leading spaces, optional sign, then a maximal
digit run; `none` models `NaN`. -/
def parseIntJS : List Char → Option Int
  | [] => none
  | c :: cs =>
    if c = ' ' then parseIntJS cs
    else if c = '-' then (parsePrefixNat cs).map (fun n => -(n : Int))
    else if c = '+' then (parsePrefixNat cs).map (fun n => (n : Int))
    else (parsePrefixNat (c :: cs)).map (fun n => (n : Int))

/-- The canonical-numeral test used by JS property access on arrays and on
objects whose keys were written as numbers: `arr[s]` hits index `n` exactly
when `s` is the canonical decimal numeral of `n` (all digits, no leading zero
except `"0"` itself). -/
def canonNat (s : List Char) : Option Nat :=
  match s with
  | [] => none
  | c :: cs =>
    if s.all isDigitB then
      if c = '0' ∧ cs ≠ [] then none
      else parsePrefixNat (c :: cs)
    else none

/-- JS array indexing with a string subscript. -/
def jsArrayGet {α : Type} (l : List α) (s : Str) : Option α :=
  (canonNat s).bind l.get?

/-- JS `"...".split('x')` on the model strings. -/
def splitX : List Char → List Str
  | [] => [[]]
  | c :: cs =>
    if c = 'x' then [] :: splitX cs
    else
      match splitX cs with
      | [] => [[c]]
      | s :: rest => (c :: s) :: rest

/-- JS `Math.round` applied to a difference of time readings.  The source
computes its time values as `new Date().getTime() / 1000` (seconds, from
integer milliseconds) and rounds differences of them; the model keeps the
exact millisecond readings, so `Math.round(aSec - bSec)` for millisecond
values `a`, `b` is `⌊(a - b) / 1000 + 1/2⌋`, computed here as a euclidean
division so that it evaluates by kernel reduction (`roundJS_eq_floor` below
proves it equal to the floor form). -/
def roundJS (ms : ℤ) : ℤ := (2 * ms + 1000) / 2000

/-- The division-free `roundJS` agrees with `⌊ms/1000 + 1/2⌋`, the rounding of
the seconds value the source manipulates. -/
theorem roundJS_eq_floor (ms : ℤ) : roundJS ms = Int.floor ((ms : ℚ) / 1000 + 1 / 2) := by
  rw [eq_comm, Int.floor_eq_iff]
  have hmod := Int.ediv_add_emod (2 * ms + 1000) 2000
  have hmodQ : (2000 : ℚ) * (((2 * ms + 1000) / 2000 : ℤ) : ℚ) +
      (((2 * ms + 1000) % 2000 : ℤ) : ℚ) = 2 * (ms : ℚ) + 1000 := by
    exact_mod_cast hmod
  have hloQ : (0 : ℚ) ≤ (((2 * ms + 1000) % 2000 : ℤ) : ℚ) := by
    exact_mod_cast Int.emod_nonneg (2 * ms + 1000) (by norm_num : (2000 : ℤ) ≠ 0)
  have hhiQ : (((2 * ms + 1000) % 2000 : ℤ) : ℚ) < 2000 := by
    exact_mod_cast Int.emod_lt_of_pos (2 * ms + 1000) (by norm_num : (0 : ℤ) < 2000)
  unfold roundJS
  constructor
  · rw [div_add' _ _ _ (by norm_num : (1000 : ℚ) ≠ 0),
      le_div_iff₀ (by norm_num : (0 : ℚ) < 1000)]
    linarith [hmodQ, hloQ]
  · rw [div_add' _ _ _ (by norm_num : (1000 : ℚ) ≠ 0),
      div_lt_iff₀ (by norm_num : (0 : ℚ) < 1000)]
    linarith [hmodQ, hhiQ]

/-- The model string JS produces for an `undefined` subscript. -/
def undefinedStr : Str := "undefined".toList

/-- Association-list lookup with exact key matching (JS own-property access). -/
def assocFind {κ α : Type} [DecidableEq κ] : List (κ × α) → κ → Option α
  | [], _ => none
  | (k, v) :: rest, key => if k = key then some v else assocFind rest key

/-- Association-list insert/overwrite (JS `obj[key] = v`): replace the binding
if the key is present, else append. -/
def assocInsert {κ α : Type} [DecidableEq κ] : List (κ × α) → κ → α → List (κ × α)
  | [], key, v => [(key, v)]
  | (k, w) :: rest, key, v =>
    if k = key then (key, v) :: rest else (k, w) :: assocInsert rest key v

/-! ## Data model -/

/-- One entry of a decoded transaction's `vout` array.  `value` and
`scriptPubKey.addresses` may each be absent (`undefined`). -/
structure TxOut where
  value : Option ℚ
  addresses : Option (List Str)
deriving DecidableEq

/-- A decoded raw transaction; `vout` may be absent. -/
structure DecodedTx where
  vout : Option (List TxOut)
deriving DecidableEq

/-- A block as returned by `getBlock(hash, 1)`: height, unix time, ordered txids. -/
structure Block where
  height : Nat
  time : ℤ
  tx : List Str
deriving DecidableEq

/-- Verbose-mempool metadata for one entry (`details.fee`, `details.vsize`). -/
structure MempoolMeta where
  fee : ℚ
  vsize : ℚ
deriving DecidableEq

/-- One element of `walletMempoolTxs`. -/
structure WalletTx where
  txid : Str
  amount : Option ℚ
  fee : ℚ
  vsize : ℚ
deriving DecidableEq

/-- The funding-tx record built on a successful resolution.  The `txid` field is
`Option` because the source stores `block.tx[txIdx]`, which may be `undefined`. -/
structure FundingRecord where
  timestamp : ℤ
  txid : Option Str
  value : ℚ
deriving DecidableEq

/-- A value stored in `fundingTxCache`: either a funding-tx record or — under
the reserved wallet-address key — the confirmed-transaction list. -/
inductive CacheVal : Type
  | record (r : FundingRecord)
  | confirmed (txs : List Str)
deriving DecidableEq

/-- The mutable fields of the `FundingTxFetcher` class instance. -/
structure FetcherState where
  running : Bool
  blocksCache : List (Nat × Block)
  channelNewlyProcessed : Nat
  fundingTxCache : List (Str × CacheVal)
  walletMempoolTxs : List WalletTx
deriving DecidableEq

/-- A call to the RPC collaborator, recorded so "no RPC calls" is statable. -/
inductive RpcCall : Type
  | getBlockHash (h : Option Int)
  | getBlock (hash : Str)
  | getRawTransaction (txid : Option Str)
  | decodeRawTransaction (raw : Str)
deriving DecidableEq

/-- External collaborators: the bitcoin RPC client, the short-id normalizer
`Common.channelIntegerIdToShortId`, and the logger-interval config value. -/
structure Env where
  normalize : Str → Str
  getBlockHash : Option Int → Except Unit Str
  getBlock : Str → Except Unit Block
  getRawTransaction : Option Str → Except Unit Str
  getRawTransactionVerbose : Str → Except Unit Str
  decodeRawTransaction : Str → Except Unit (Option DecodedTx)
  getAddressTxs : Str → Except Unit (List Str)
  getRawMempool : Except Unit (List (Str × MempoolMeta))
  loggerUpdateInterval : Int

/-- `const BLOCKS_CACHE_MAX_SIZE = 100`. -/
def BLOCKS_CACHE_MAX_SIZE : Nat := 100

/-- `const MY_LIGHTNING_WALLET_ADDRESS = 'bc1q...'`. -/
def MY_LIGHTNING_WALLET_ADDRESS : Str := "bc1qpqlsehzrjmxhutxmlwt6tdjkwafvcgugpv5375".toList

/-! ## The block cache (lines 137–149 of the source) -/

/-- `this.blocksCache[block.height] = block`.  Keys are always written from the
numeric `block.height`, so the cache is modelled with `Nat` keys. -/
def insertBlock (cache : List (Nat × Block)) (b : Block) : List (Nat × Block) :=
  assocInsert cache b.height b

/-- Ascending numeric sort of the cache keys:
`Object.keys(this.blocksCache).sort((a, b) => parseInt(b) - parseInt(a)).reverse()`. -/
def sortNat (l : List Nat) : List Nat := List.insertionSort (· ≤ ·) l

/-- The eviction step: if more than `BLOCKS_CACHE_MAX_SIZE` entries are present,
delete the entries at the 10 numerically smallest keys. -/
def evictStep (c : List (Nat × Block)) : List (Nat × Block) :=
  if BLOCKS_CACHE_MAX_SIZE < c.length then
    c.filter (fun p => decide (p.1 ∉ (sortNat (c.map Prod.fst)).take 10))
  else c

/-- Insert followed by the eviction check, exactly as the two statements appear
in sequence inside `$fetchChannelOpenTx`. -/
def blocksCachePut (cache : List (Nat × Block)) (b : Block) : List (Nat × Block) :=
  evictStep (insertBlock cache b)

/-- Block acquisition (lines 137–141): try `blocksCache[blockHeight]`
(string-keyed lookup against numeric keys), else `getBlockHash` + `getBlock`.
On a throw, returns the RPC calls already made. -/
def getBlockStep (env : Env) (cache : List (Nat × Block)) (blockHeight : Str) :
    Except (List RpcCall) (Block × List RpcCall) :=
  match (canonNat blockHeight).bind (assocFind cache) with
  | some b => .ok (b, [])
  | none =>
    match env.getBlockHash (parseIntJS blockHeight) with
    | .error _ => .error [.getBlockHash (parseIntJS blockHeight)]
    | .ok hash =>
      match env.getBlock hash with
      | .error _ => .error [.getBlockHash (parseIntJS blockHeight), .getBlock hash]
      | .ok b => .ok (b, [.getBlockHash (parseIntJS blockHeight), .getBlock hash])

/-- Result of one `$fetchChannelOpenTx` call.  `ret = none` models a thrown
exception; `ret = some r` models a normal return of `r` (itself `Option`al,
since the method returns `null` on a failed validation). -/
structure ResolveOut where
  st : FetcherState
  calls : List RpcCall
  ret : Option (Option CacheVal)
deriving DecidableEq

/-- `$fetchChannelOpenTx(channelId)`, lines 125–169 of the source. -/
def fetchChannelOpenTx (env : Env) (st : FetcherState) (channelId0 : Str) : ResolveOut :=
  let channelId := env.normalize channelId0
  match assocFind st.fundingTxCache channelId with
  | some v => ⟨st, [], some (some v)⟩
  | none =>
    let parts := splitX channelId
    let blockHeight := parts.headD []
    let txIdxS := (parts.get? 1).getD undefinedStr
    let outputIdxS := (parts.get? 2).getD undefinedStr
    match getBlockStep env st.blocksCache blockHeight with
    | .error cs => ⟨st, cs, none⟩
    | .ok (block, cs) =>
      let st1 : FetcherState := { st with blocksCache := blocksCachePut st.blocksCache block }
      let txid := jsArrayGet block.tx txIdxS
      match env.getRawTransaction txid with
      | .error _ => ⟨st1, cs ++ [.getRawTransaction txid], none⟩
      | .ok raw =>
        let cs2 := cs ++ [.getRawTransaction txid, .decodeRawTransaction raw]
        match env.decodeRawTransaction raw with
        | .error _ => ⟨st1, cs2, none⟩
        | .ok none => ⟨st1, cs2, some none⟩
        | .ok (some tx) =>
          match tx.vout with
          | none => ⟨st1, cs2, some none⟩
          | some vout =>
            if (match parseIntJS outputIdxS with
                | some k => decide ((vout.length : Int) < k + 1)
                | none => false) then
              ⟨st1, cs2, some none⟩
            else
              match jsArrayGet vout outputIdxS with
              | none => ⟨st1, cs2, none⟩
              | some o =>
                match o.value with
                | none => ⟨st1, cs2, some none⟩
                | some v =>
                  let st2 : FetcherState :=
                    { st1 with
                      fundingTxCache :=
                        assocInsert st1.fundingTxCache channelId (.record ⟨block.time, txid, v⟩),
                      channelNewlyProcessed := st1.channelNewlyProcessed + 1 }
                  ⟨st2, cs2, some (assocFind st2.fundingTxCache channelId)⟩

/-! ## The wallet monitor (lines 40–76 of the source) -/

/-- The `sendsToMe` predicate:
`out.scriptPubKey.addresses && out.scriptPubKey.addresses.includes(MY_LIGHTNING_WALLET_ADDRESS)`. -/
def matchesWallet (o : TxOut) : Bool :=
  match o.addresses with
  | some as => decide (MY_LIGHTNING_WALLET_ADDRESS ∈ as)
  | none => false

/-- One step of the `reduce` computing an entry's amount:
`out.scriptPubKey.addresses?.includes(ADDR) ? sum + out.value : sum`.
`none` models `NaN` (adding an `undefined` value). -/
def walletSumStep (acc : Option ℚ) (o : TxOut) : Option ℚ :=
  if matchesWallet o then
    match acc, o.value with
    | some a, some v => some (a + v)
    | _, _ => none
  else acc

/-- The whole `reduce`, starting from `0`. -/
def amountFold (vout : List TxOut) : Option ℚ := vout.foldl walletSumStep (some 0)

/-- Process one verbose-mempool entry inside `$monitorLightningWallet`'s loop:
fetch the raw tx, decode it, test `sendsToMe`, and build the pushed element.
A `null` decode or missing `vout` throws (property access on `undefined`),
which the surrounding `try` catches. -/
def scanMempoolEntry (env : Env) (txid : Str) (details : MempoolMeta) :
    Except Unit (Option WalletTx) :=
  match env.getRawTransactionVerbose txid with
  | .error _ => .error ()
  | .ok rawTx =>
    match env.decodeRawTransaction rawTx with
    | .error _ => .error ()
    | .ok none => .error ()
    | .ok (some decoded) =>
      match decoded.vout with
      | none => .error ()
      | some vout =>
        if vout.any matchesWallet then
          .ok (some ⟨txid, amountFold vout, details.fee, details.vsize⟩)
        else .ok none

/-- The `for (const [txid, details] of Object.entries(mempoolEntries))` loop,
collecting matches in order. -/
def scanEntries (env : Env) : List (Str × MempoolMeta) → Except Unit (List WalletTx)
  | [] => .ok []
  | (txid, details) :: rest =>
    match scanMempoolEntry env txid details with
    | .error _ => .error ()
    | .ok r =>
      match scanEntries env rest with
      | .error _ => .error ()
      | .ok rs =>
        match r with
        | some w => .ok (w :: rs)
        | none => .ok rs

/-- The body of `$monitorLightningWallet`'s `try` block, up to the two state
assignments: fetch the confirmed txs, list the mempool, and scan it. -/
def walletScan (env : Env) : Except Unit (List Str × List WalletTx) :=
  match env.getAddressTxs MY_LIGHTNING_WALLET_ADDRESS with
  | .error _ => .error ()
  | .ok confirmedTxs =>
    match env.getRawMempool with
    | .error _ => .error ()
    | .ok mempoolEntries =>
      match scanEntries env mempoolEntries with
      | .error _ => .error ()
      | .ok mempoolTxs => .ok (confirmedTxs, mempoolTxs)

/-- `$monitorLightningWallet()`: on a successful scan, replace the snapshot and
store the confirmed txs under the reserved address key; any exception is caught
and leaves the state untouched. -/
def monitorLightningWallet (env : Env) (st : FetcherState) : FetcherState :=
  match walletScan env with
  | .ok (confirmedTxs, mempoolTxs) =>
    { st with
      walletMempoolTxs := mempoolTxs,
      fundingTxCache :=
        assocInsert st.fundingTxCache MY_LIGHTNING_WALLET_ADDRESS (.confirmed confirmedTxs) }
  | .error _ => st

/-! ## The batch driver `$fetchChannelsFundingTxs` (lines 78–123 of the source) -/

/-- Wall-clock readings in milliseconds: the `n`-th evaluation of
`new Date().getTime()` during one driver call yields `clock n`; the source's
division by 1000 is folded into `roundJS`. -/
abbrev Clock := Nat → ℤ

/-- A clock that never advances. -/
def clkZero : Clock := fun _ => 0

/-- Ghost record of one per-item checkpoint test (lines 105–110): the reading
`d` compared against `cacheTimer`, the `cacheTimer` value before the test,
whether the flush fired, the `cacheTimer` value after the test, and the cache
contents that a firing flush writes to disk. -/
structure CheckEv where
  time : ℤ
  timerBefore : ℤ
  flushed : Bool
  resetTime : ℤ
  snapshot : List (Str × CacheVal)
deriving DecidableEq

/-- Loop-carried state of the `for (const channelId of channelIds)` loop. -/
structure LoopSt where
  st : FetcherState
  cacheTimer : ℤ
  loggerTimer : ℤ
  k : Nat
  channelProcessed : Nat
  checks : List CheckEv
deriving DecidableEq

/-- One iteration of the batch loop (lines 91–111): resolve the id (a throw
aborts the batch), then the progress-log block, then the checkpoint block. -/
def loopStep (env : Env) (clock : Clock) (ls : LoopSt) (channelId : Str) : LoopSt × Bool :=
  let r := fetchChannelOpenTx env ls.st channelId
  match r.ret with
  | none => ({ ls with st := r.st }, true)
  | some _ =>
    let cp := ls.channelProcessed + 1
    let a := clock ls.k
    let ll :=
      if roundJS (a - ls.loggerTimer) > env.loggerUpdateInterval then
        (clock (ls.k + 2), ls.k + 3)
      else (ls.loggerTimer, ls.k + 1)
    let d := clock ll.2
    if roundJS (d - ls.cacheTimer) > 60 then
      let e := clock (ll.2 + 1)
      ({ st := r.st, cacheTimer := e, loggerTimer := ll.1, k := ll.2 + 2,
         channelProcessed := cp,
         checks := ls.checks ++ [⟨d, ls.cacheTimer, true, e, r.st.fundingTxCache⟩] }, false)
    else
      ({ st := r.st, cacheTimer := ls.cacheTimer, loggerTimer := ll.1, k := ll.2 + 1,
         channelProcessed := cp,
         checks := ls.checks ++ [⟨d, ls.cacheTimer, false, ls.cacheTimer, r.st.fundingTxCache⟩] },
       false)

/-- The batch loop; stops early (with `true`) when an iteration throws. -/
def batchLoop (env : Env) (clock : Clock) : List Str → LoopSt → LoopSt × Bool
  | [], ls => (ls, false)
  | channelId :: rest, ls =>
    let s := loopStep env clock ls channelId
    if s.2 then s else batchLoop env clock rest s.1

/-- Result of one `$fetchChannelsFundingTxs` call.  `threw = true` models the
call exiting by an uncaught exception; `finalFlush` is the cache snapshot
written by the end-of-batch flush, when it happens. -/
structure BatchResult where
  st : FetcherState
  checks : List CheckEv
  finalFlush : Option (List (Str × CacheVal))
  threw : Bool
deriving DecidableEq

/-- The checkpoint flushes a batch run actually performed. -/
def checkpointFlushes (r : BatchResult) : List CheckEv :=
  r.checks.filter (fun c => c.flushed)

/-- The loop state at entry of the `for` loop: `running` was set, the counter
reset, and the three timers read (`clock 0` is `globalTimer`, `clock 1` is
`cacheTimer`, `clock 2` is `loggerTimer`), so the first in-loop reading has
index 3. -/
def initLoopSt (clock : Clock) (st : FetcherState) : LoopSt :=
  ⟨{ st with running := true, channelNewlyProcessed := 0 }, clock 1, clock 2, 3, 0, []⟩

/-- `$fetchChannelsFundingTxs(channelIds)`, lines 78–123 of the source. -/
def fetchChannelsFundingTxs (env : Env) (clock : Clock) (st : FetcherState)
    (channelIds : List Str) : BatchResult :=
  if st.running then ⟨st, [], none, false⟩
  else
    let lr := batchLoop env clock channelIds (initLoopSt clock st)
    if lr.2 then ⟨lr.1.st, lr.1.checks, none, true⟩
    else
      let finalFlush :=
        if 0 < lr.1.st.channelNewlyProcessed then some lr.1.st.fundingTxCache else none
      ⟨{ monitorLightningWallet env lr.1.st with running := false }, lr.1.checks, finalFlush,
       false⟩

/-! ## Basic lemmas about the map and numeral helpers -/

theorem assocFind_assocInsert_self {κ α : Type} [DecidableEq κ]
    (l : List (κ × α)) (k : κ) (v : α) :
    assocFind (assocInsert l k v) k = some v := by
  induction l with
  | nil => simp [assocInsert, assocFind]
  | cons p rest ih =>
    obtain ⟨k', w⟩ := p
    by_cases h : k' = k <;> simp [assocInsert, assocFind, h, ih]

theorem assocInsert_length {κ α : Type} [DecidableEq κ]
    (l : List (κ × α)) (k : κ) (v : α) :
    (assocInsert l k v).length = if (assocFind l k).isSome then l.length else l.length + 1 := by
  induction l with
  | nil => simp [assocInsert, assocFind]
  | cons p rest ih =>
    obtain ⟨k', w⟩ := p
    by_cases h : k' = k
    · simp [assocInsert, assocFind, h]
    · simp only [assocInsert, assocFind, h, if_false, List.length_cons, ih]
      split <;> simp

theorem assocInsert_keys_of_isSome {κ α : Type} [DecidableEq κ]
    (l : List (κ × α)) (k : κ) (v : α) (h : (assocFind l k).isSome) :
    (assocInsert l k v).map Prod.fst = l.map Prod.fst := by
  induction l with
  | nil => simp [assocFind] at h
  | cons p rest ih =>
    obtain ⟨k', w⟩ := p
    by_cases hk : k' = k
    · simp [assocInsert, hk]
    · simp [assocFind, hk] at h
      simp [assocInsert, hk, ih h]

theorem assocInsert_keys_of_isNone {κ α : Type} [DecidableEq κ]
    (l : List (κ × α)) (k : κ) (v : α) (h : assocFind l k = none) :
    (assocInsert l k v).map Prod.fst = l.map Prod.fst ++ [k] := by
  induction l with
  | nil => simp [assocInsert]
  | cons p rest ih =>
    obtain ⟨k', w⟩ := p
    by_cases hk : k' = k
    · simp [assocFind, hk] at h
    · simp [assocFind, hk] at h
      simp [assocInsert, hk, ih h]

theorem isDigitB_ne_space {c : Char} (h : isDigitB c = true) : c ≠ ' ' := by
  intro h'; subst h'; exact absurd h (by decide)

theorem isDigitB_ne_minus {c : Char} (h : isDigitB c = true) : c ≠ '-' := by
  intro h'; subst h'; exact absurd h (by decide)

theorem isDigitB_ne_plus {c : Char} (h : isDigitB c = true) : c ≠ '+' := by
  intro h'; subst h'; exact absurd h (by decide)

/-- A canonical numeral is also accepted by `parseInt`, with the same value. -/
theorem parseIntJS_of_canonNat {s : Str} {n : Nat} (h : canonNat s = some n) :
    parseIntJS s = some (n : Int) := by
  cases s with
  | nil => simp [canonNat] at h
  | cons c cs =>
    simp only [canonNat] at h
    by_cases hall : (c :: cs).all isDigitB
    · have hc : isDigitB c = true := by
        simp only [List.all_cons, Bool.and_eq_true] at hall; exact hall.1
      simp only [hall, if_true] at h
      have hp : parsePrefixNat (c :: cs) = some n := by
        by_cases h0 : c = '0' ∧ cs ≠ []
        · simp [h0] at h
        · simpa [h0] using h
      simp [parseIntJS, isDigitB_ne_space hc, isDigitB_ne_minus hc, isDigitB_ne_plus hc, hp]
    · simp [hall] at h

theorem jsArrayGet_eq {α : Type} {l : List α} {s : Str} {n : Nat}
    (h : canonNat s = some n) : jsArrayGet l s = l.get? n := by
  simp [jsArrayGet, h]

/-! ## Behaviour of `$fetchChannelOpenTx` -/

/-- Cache-hit fast path (lines 128–130): a present key returns the stored value
with no RPC call and no state change at all. -/
theorem resolve_cacheHit (env : Env) (st : FetcherState) (channelId : Str) (v : CacheVal)
    (hhit : assocFind st.fundingTxCache (env.normalize channelId) = some v) :
    fetchChannelOpenTx env st channelId = ⟨st, [], some (some v)⟩ := by
  unfold fetchChannelOpenTx
  simp only [hhit]

/-! ## Witness scaffolding: concrete environments and states -/

/-- A concrete RPC environment used by witnesses: block 100 has txids
`["t0", "t1"]`, and `"t1"` decodes to a single output of value 5. -/
def envA : Env where
  normalize := fun s => s
  getBlockHash := fun h => if h = some 100 then .ok "hash100".toList else .error ()
  getBlock := fun h =>
    if h = "hash100".toList then .ok ⟨100, 777, ["t0".toList, "t1".toList]⟩ else .error ()
  getRawTransaction := fun t => if t = some "t1".toList then .ok "raw1".toList else .error ()
  getRawTransactionVerbose := fun _ => .error ()
  decodeRawTransaction := fun r =>
    if r = "raw1".toList then .ok (some ⟨some [⟨some 5, none⟩]⟩) else .error ()
  getAddressTxs := fun _ => .error ()
  getRawMempool := .error ()
  loggerUpdateInterval := 30

/-- The freshly-constructed state: nothing cached, nothing running. -/
def stEmpty : FetcherState := ⟨false, [], 0, [], []⟩

/-- A state whose funding-tx cache already holds the key `"abc"`. -/
def stHit : FetcherState := ⟨false, [], 0, [("abc".toList, .confirmed [])], []⟩

/-- Block acquisition when the height is cached. -/
theorem getBlockStep_cached (env : Env) (cache : List (Nat × Block)) (bh : Str) (b : Block)
    (h : (canonNat bh).bind (assocFind cache) = some b) :
    getBlockStep env cache bh = .ok (b, []) := by
  unfold getBlockStep
  simp [h]

/-- Block acquisition on a cache miss with both RPC calls succeeding. -/
theorem getBlockStep_rpc (env : Env) (cache : List (Nat × Block)) (bh hsh : Str) (b : Block)
    (h1 : (canonNat bh).bind (assocFind cache) = none)
    (h2 : env.getBlockHash (parseIntJS bh) = .ok hsh)
    (h3 : env.getBlock hsh = .ok b) :
    getBlockStep env cache bh = .ok (b, [.getBlockHash (parseIntJS bh), .getBlock hsh]) := by
  unfold getBlockStep
  simp [h1, h2, h3]

/-- The success path of `$fetchChannelOpenTx` (lines 151–168), in full: the
record `{timestamp: block.time, txid, value}` is built, inserted under the
normalized id, the counter is bumped, and the freshly-inserted record is
returned. -/
theorem resolve_success
    (env : Env) (st : FetcherState) (channelId : Str)
    (hS tS oS : Str) (T O : Nat) (tT raw : Str)
    (tx : DecodedTx) (vout : List TxOut) (o : TxOut) (V : ℚ)
    (block : Block) (bcalls : List RpcCall)
    (hmiss : assocFind st.fundingTxCache (env.normalize channelId) = none)
    (hsplit : splitX (env.normalize channelId) = [hS, tS, oS])
    (hblk : getBlockStep env st.blocksCache hS = .ok (block, bcalls))
    (hT : canonNat tS = some T)
    (htT : block.tx.get? T = some tT)
    (hraw : env.getRawTransaction (some tT) = .ok raw)
    (hdec : env.decodeRawTransaction raw = .ok (some tx))
    (hvout : tx.vout = some vout)
    (hO : canonNat oS = some O)
    (hout : vout.get? O = some o)
    (hval : o.value = some V) :
    fetchChannelOpenTx env st channelId =
      ⟨{ st with
          blocksCache := blocksCachePut st.blocksCache block,
          channelNewlyProcessed := st.channelNewlyProcessed + 1,
          fundingTxCache :=
            assocInsert st.fundingTxCache (env.normalize channelId)
              (.record ⟨block.time, some tT, V⟩) },
       bcalls ++ [.getRawTransaction (some tT), .decodeRawTransaction raw],
       some (some (.record ⟨block.time, some tT, V⟩))⟩ := by
  have htid : jsArrayGet block.tx tS = some tT := by rw [jsArrayGet_eq hT]; exact htT
  have hOget : jsArrayGet vout oS = some o := by rw [jsArrayGet_eq hO]; exact hout
  have hpo : parseIntJS oS = some (O : Int) := parseIntJS_of_canonNat hO
  obtain ⟨hlt, -⟩ := List.get?_eq_some.mp hout
  have hlen : ¬ ((vout.length : Int) < (O : Int) + 1) := by omega
  unfold fetchChannelOpenTx
  simp only [hmiss, hsplit, List.headD_cons, List.get?, Option.getD_some, hblk, htid, hraw, hdec,
    hvout, hpo, hOget, hval, hlen, decide_eq_true_eq, if_false,
    assocFind_assocInsert_self]

/-- C3: for every channel id `H x T x O` whose block has transaction `tT` at
index `T`, with `tT` decoding to an output list holding value `V` at index `O`,
and whose normalized id misses `fundingTxCache`, `$fetchChannelOpenTx` returns
`{timestamp: block.time, txid: tT, value: V}`, stores that record under the
normalized channel id, and increments the newly-processed counter by one. -/
theorem claim_C3_success
    (env : Env) (st : FetcherState) (channelId : Str)
    (hS tS oS : Str) (H T O : Nat) (tT raw : Str)
    (tx : DecodedTx) (vout : List TxOut) (o : TxOut) (V : ℚ)
    (block : Block) (bcalls : List RpcCall)
    (hmiss : assocFind st.fundingTxCache (env.normalize channelId) = none)
    (hsplit : splitX (env.normalize channelId) = [hS, tS, oS])
    (_hH : canonNat hS = some H)
    (hblk : getBlockStep env st.blocksCache hS = .ok (block, bcalls))
    (hT : canonNat tS = some T)
    (htT : block.tx.get? T = some tT)
    (hraw : env.getRawTransaction (some tT) = .ok raw)
    (hdec : env.decodeRawTransaction raw = .ok (some tx))
    (hvout : tx.vout = some vout)
    (hO : canonNat oS = some O)
    (hout : vout.get? O = some o)
    (hval : o.value = some V) :
    (fetchChannelOpenTx env st channelId).ret =
      some (some (.record ⟨block.time, some tT, V⟩)) ∧
    assocFind (fetchChannelOpenTx env st channelId).st.fundingTxCache (env.normalize channelId) =
      some (.record ⟨block.time, some tT, V⟩) ∧
    (fetchChannelOpenTx env st channelId).st.channelNewlyProcessed =
      st.channelNewlyProcessed + 1 := by
  rw [resolve_success env st channelId hS tS oS T O tT raw tx vout o V block bcalls
    hmiss hsplit hblk hT htT hraw hdec hvout hO hout hval]
  exact ⟨rfl, assocFind_assocInsert_self _ _ _, rfl⟩

/-- Witness for C3: resolving `"100x1x0"` against `envA` from the empty state. -/
theorem claim_C3_witness :
    (fetchChannelOpenTx envA stEmpty "100x1x0".toList).ret =
      some (some (.record ⟨777, some "t1".toList, 5⟩)) ∧
    assocFind (fetchChannelOpenTx envA stEmpty "100x1x0".toList).st.fundingTxCache
      (envA.normalize "100x1x0".toList) = some (.record ⟨777, some "t1".toList, 5⟩) ∧
    (fetchChannelOpenTx envA stEmpty "100x1x0".toList).st.channelNewlyProcessed =
      stEmpty.channelNewlyProcessed + 1 :=
  claim_C3_success envA stEmpty "100x1x0".toList "100".toList "1".toList "0".toList 100 1 0
    "t1".toList "raw1".toList ⟨some [⟨some 5, none⟩]⟩ [⟨some 5, none⟩] ⟨some 5, none⟩ 5
    ⟨100, 777, ["t0".toList, "t1".toList]⟩
    [.getBlockHash (parseIntJS "100".toList), .getBlock "hash100".toList]
    (by rfl) (by rfl) (by rfl) (by rfl) (by rfl) (by rfl) (by rfl) (by rfl) (by rfl) (by rfl)
    (by rfl) (by rfl)

/-- C4: for every channel id whose normalized key is already present in
`fundingTxCache`, `$fetchChannelOpenTx` returns the cached record immediately,
performs no RPC calls, and leaves the whole state — `fundingTxCache`,
`blocksCache` and the newly-processed counter included — unchanged. -/
theorem claim_C4_cache_hit_pure (env : Env) (st : FetcherState) (channelId : Str) (v : CacheVal)
    (hhit : assocFind st.fundingTxCache (env.normalize channelId) = some v) :
    fetchChannelOpenTx env st channelId = ⟨st, [], some (some v)⟩ :=
  resolve_cacheHit env st channelId v hhit

/-- Witness for C4 at a concrete cached id. -/
theorem claim_C4_witness :
    fetchChannelOpenTx envA stHit "abc".toList = ⟨stHit, [], some (some (.confirmed []))⟩ :=
  claim_C4_cache_hit_pure envA stHit "abc".toList (.confirmed []) (by rfl)

/-- The four-way failure condition of the output validation (line 155):
`!tx || !tx.vout || tx.vout.length < parseInt(outputIdx, 10) + 1 ||
tx.vout[outputIdx].value === undefined`, for a canonical output index `O`. -/
def outputCheckFails (d : Option DecodedTx) (O : Nat) : Prop :=
  d = none ∨
  (∃ tx, d = some tx ∧ tx.vout = none) ∨
  (∃ tx vout, d = some tx ∧ tx.vout = some vout ∧ vout.length < O + 1) ∨
  (∃ tx vout o, d = some tx ∧ tx.vout = some vout ∧ vout.get? O = some o ∧ o.value = none)

/-- The null-return path shared by C5 and C10: with a decoded transaction
failing the output validation, the call returns `null` without touching
`fundingTxCache` or the counter; `blocksCache` has already received the block. -/
theorem resolve_outputCheckFails
    (env : Env) (st : FetcherState) (channelId : Str)
    (hS tS oS : Str) (O : Nat) (raw : Str) (d : Option DecodedTx)
    (block : Block) (bcalls : List RpcCall)
    (hmiss : assocFind st.fundingTxCache (env.normalize channelId) = none)
    (hsplit : splitX (env.normalize channelId) = [hS, tS, oS])
    (hblk : getBlockStep env st.blocksCache hS = .ok (block, bcalls))
    (hraw : env.getRawTransaction (jsArrayGet block.tx tS) = .ok raw)
    (hdec : env.decodeRawTransaction raw = .ok d)
    (hO : canonNat oS = some O)
    (hfail : outputCheckFails d O) :
    fetchChannelOpenTx env st channelId =
      ⟨{ st with blocksCache := blocksCachePut st.blocksCache block },
       bcalls ++ [.getRawTransaction (jsArrayGet block.tx tS), .decodeRawTransaction raw],
       some none⟩ := by
  have hpo : parseIntJS oS = some (O : Int) := parseIntJS_of_canonNat hO
  unfold fetchChannelOpenTx
  rcases hfail with h | ⟨tx, hd, hv⟩ | ⟨tx, vout, hd, hv, hlen⟩ | ⟨tx, vout, o, hd, hv, hget, hval⟩
  · subst h
    simp only [hmiss, hsplit, List.headD_cons, List.get?, Option.getD_some, hblk, hraw, hdec]
  · subst hd
    simp only [hmiss, hsplit, List.headD_cons, List.get?, Option.getD_some, hblk, hraw, hdec, hv]
  · subst hd
    have hlen' : ((vout.length : Int) < (O : Int) + 1) := by omega
    simp only [hmiss, hsplit, List.headD_cons, List.get?, Option.getD_some, hblk, hraw, hdec, hv,
      hpo, hlen', decide_eq_true_eq, if_true]
  · subst hd
    obtain ⟨hlt, -⟩ := List.get?_eq_some.mp hget
    have hlen : ¬ ((vout.length : Int) < (O : Int) + 1) := by omega
    have hOget : jsArrayGet vout oS = some o := by rw [jsArrayGet_eq hO]; exact hget
    simp only [hmiss, hsplit, List.headD_cons, List.get?, Option.getD_some, hblk, hraw, hdec, hv,
      hpo, hlen, decide_eq_true_eq, if_false, hOget, hval]

/-- C5: for every channel id `H x T x O` where the decoded transaction is
missing, has no output list, has fewer than `O + 1` outputs, or has an
undefined value at output index `O`, `$fetchChannelOpenTx` returns `null` and
inserts nothing into `fundingTxCache`. -/
theorem claim_C5_invalid_output_returns_null
    (env : Env) (st : FetcherState) (channelId : Str)
    (hS tS oS : Str) (O : Nat) (raw : Str) (d : Option DecodedTx)
    (block : Block) (bcalls : List RpcCall)
    (hmiss : assocFind st.fundingTxCache (env.normalize channelId) = none)
    (hsplit : splitX (env.normalize channelId) = [hS, tS, oS])
    (hblk : getBlockStep env st.blocksCache hS = .ok (block, bcalls))
    (hraw : env.getRawTransaction (jsArrayGet block.tx tS) = .ok raw)
    (hdec : env.decodeRawTransaction raw = .ok d)
    (hO : canonNat oS = some O)
    (hfail : outputCheckFails d O) :
    (fetchChannelOpenTx env st channelId).ret = some none ∧
    (fetchChannelOpenTx env st channelId).st.fundingTxCache = st.fundingTxCache := by
  rw [resolve_outputCheckFails env st channelId hS tS oS O raw d block bcalls
    hmiss hsplit hblk hraw hdec hO hfail]
  exact ⟨rfl, rfl⟩

/-- Witness for C5: `"100x1x5"` asks for output index 5 of a 1-output tx. -/
theorem claim_C5_witness :
    (fetchChannelOpenTx envA stEmpty "100x1x5".toList).ret = some none ∧
    (fetchChannelOpenTx envA stEmpty "100x1x5".toList).st.fundingTxCache =
      stEmpty.fundingTxCache :=
  claim_C5_invalid_output_returns_null envA stEmpty "100x1x5".toList
    "100".toList "1".toList "5".toList 5 "raw1".toList (some ⟨some [⟨some 5, none⟩]⟩)
    ⟨100, 777, ["t0".toList, "t1".toList]⟩
    [.getBlockHash (parseIntJS "100".toList), .getBlock "hash100".toList]
    (by rfl) (by rfl) (by rfl) (by rfl) (by rfl) (by rfl)
    (Or.inr (Or.inr (Or.inl ⟨⟨some [⟨some 5, none⟩]⟩, [⟨some 5, none⟩], rfl, rfl, by decide⟩)))

/-- C10: a resolution that fails the output validation after a block-cache miss
still leaves the fetched block inserted in `blocksCache` (with the eviction
step applied), while `fundingTxCache` and the newly-processed counter are
unchanged and `null` is returned. -/
theorem claim_C10_failed_resolution_blocksCache_effect
    (env : Env) (st : FetcherState) (channelId : Str)
    (hS tS oS : Str) (O : Nat) (hsh raw : Str) (d : Option DecodedTx) (block : Block)
    (hmiss : assocFind st.fundingTxCache (env.normalize channelId) = none)
    (hsplit : splitX (env.normalize channelId) = [hS, tS, oS])
    (hbcMiss : (canonNat hS).bind (assocFind st.blocksCache) = none)
    (hhash : env.getBlockHash (parseIntJS hS) = .ok hsh)
    (hblock : env.getBlock hsh = .ok block)
    (hraw : env.getRawTransaction (jsArrayGet block.tx tS) = .ok raw)
    (hdec : env.decodeRawTransaction raw = .ok d)
    (hO : canonNat oS = some O)
    (hfail : outputCheckFails d O) :
    (fetchChannelOpenTx env st channelId).ret = some none ∧
    (fetchChannelOpenTx env st channelId).st.blocksCache =
      blocksCachePut st.blocksCache block ∧
    (fetchChannelOpenTx env st channelId).st.fundingTxCache = st.fundingTxCache ∧
    (fetchChannelOpenTx env st channelId).st.channelNewlyProcessed =
      st.channelNewlyProcessed := by
  rw [resolve_outputCheckFails env st channelId hS tS oS O raw d block
    [.getBlockHash (parseIntJS hS), .getBlock hsh]
    hmiss hsplit (getBlockStep_rpc env st.blocksCache hS hsh block hbcMiss hhash hblock)
    hraw hdec hO hfail]
  exact ⟨rfl, rfl, rfl, rfl⟩

/-- Witness for C10: the failing `"100x1x5"` resolution leaves block 100 cached. -/
theorem claim_C10_witness :
    (fetchChannelOpenTx envA stEmpty "100x1x5".toList).ret = some none ∧
    (fetchChannelOpenTx envA stEmpty "100x1x5".toList).st.blocksCache =
      blocksCachePut stEmpty.blocksCache ⟨100, 777, ["t0".toList, "t1".toList]⟩ ∧
    (fetchChannelOpenTx envA stEmpty "100x1x5".toList).st.fundingTxCache =
      stEmpty.fundingTxCache ∧
    (fetchChannelOpenTx envA stEmpty "100x1x5".toList).st.channelNewlyProcessed =
      stEmpty.channelNewlyProcessed :=
  claim_C10_failed_resolution_blocksCache_effect envA stEmpty "100x1x5".toList
    "100".toList "1".toList "5".toList 5 "hash100".toList "raw1".toList
    (some ⟨some [⟨some 5, none⟩]⟩) ⟨100, 777, ["t0".toList, "t1".toList]⟩
    (by rfl) (by rfl) (by rfl) (by rfl) (by rfl) (by rfl) (by rfl) (by rfl)
    (Or.inr (Or.inr (Or.inl ⟨⟨some [⟨some 5, none⟩]⟩, [⟨some 5, none⟩], rfl, rfl, by decide⟩)))

/-! ## The block-cache bound and eviction policy (C2) -/

theorem assocFind_eq_none_iff {κ α : Type} [DecidableEq κ] (l : List (κ × α)) (k : κ) :
    assocFind l k = none ↔ k ∉ l.map Prod.fst := by
  induction l with
  | nil => simp [assocFind]
  | cons p rest ih =>
    obtain ⟨k', w⟩ := p
    by_cases h : k' = k
    · simp [assocFind, h]
    · have h2 : assocFind ((k', w) :: rest) k = assocFind rest k := by simp [assocFind, h]
      rw [h2, ih, List.map_cons, List.mem_cons]
      constructor
      · intro hk hor
        rcases hor with he | hm
        · exact h he.symm
        · exact hk hm
      · intro hk hm
        exact hk (Or.inr hm)

theorem insertBlock_keys_nodup (cache : List (Nat × Block)) (b : Block)
    (h : (cache.map Prod.fst).Nodup) : ((insertBlock cache b).map Prod.fst).Nodup := by
  unfold insertBlock
  cases hf : assocFind cache b.height with
  | some v =>
    rw [assocInsert_keys_of_isSome _ _ _ (by simp [hf])]
    exact h
  | none =>
    rw [assocInsert_keys_of_isNone _ _ _ hf]
    have hni : b.height ∉ cache.map Prod.fst := (assocFind_eq_none_iff _ _).mp hf
    simp [List.nodup_append, h, hni]

theorem insertBlock_length_le (cache : List (Nat × Block)) (b : Block) :
    (insertBlock cache b).length ≤ cache.length + 1 := by
  unfold insertBlock
  rw [assocInsert_length]
  split <;> omega

theorem filter_fst_length {α β : Type} (l : List (α × β)) (g : α → Bool) :
    (l.filter (fun p => g p.1)).length = ((l.map Prod.fst).filter g).length := by
  induction l with
  | nil => rfl
  | cons p rest ih =>
    cases hg : g p.1 <;> simp [hg, ih]

/-- Core combinatorics of the eviction step on a cache with distinct keys and
more than `BLOCKS_CACHE_MAX_SIZE` entries: exactly the entries whose heights
lie in the 10-element set of smallest keys are removed. -/
theorem evict_core (c' : List (Nat × Block)) (hnd : (c'.map Prod.fst).Nodup)
    (htr : BLOCKS_CACHE_MAX_SIZE < c'.length) :
    (evictStep c').length = c'.length - 10 ∧
    (∀ p ∈ c', (p ∈ evictStep c' ↔ p.1 ∉ (sortNat (c'.map Prod.fst)).take 10)) ∧
    ((sortNat (c'.map Prod.fst)).take 10).length = 10 ∧
    (∀ h ∈ (sortNat (c'.map Prod.fst)).take 10,
      ∀ h', h' ∈ c'.map Prod.fst → h' ∉ (sortNat (c'.map Prod.fst)).take 10 → h < h') := by
  have hperm : List.Perm (sortNat (c'.map Prod.fst)) (c'.map Prod.fst) :=
    List.perm_insertionSort _ _
  have hSnodup : (sortNat (c'.map Prod.fst)).Nodup := hperm.nodup_iff.mpr hnd
  have hSsorted : (sortNat (c'.map Prod.fst)).Sorted (· ≤ ·) :=
    List.sorted_insertionSort _ _
  have hSlen : (sortNat (c'.map Prod.fst)).length = c'.length := by
    rw [hperm.length_eq, List.length_map]
  have hMax : BLOCKS_CACHE_MAX_SIZE = 100 := rfl
  have hlow_len : ((sortNat (c'.map Prod.fst)).take 10).length = 10 := by
    rw [List.length_take]; omega
  have hlow_sub : ∀ a ∈ (sortNat (c'.map Prod.fst)).take 10, a ∈ c'.map Prod.fst := by
    intro a ha
    exact hperm.mem_iff.mp (List.take_subset _ _ ha)
  have hlow_nodup : ((sortNat (c'.map Prod.fst)).take 10).Nodup :=
    (List.take_sublist _ _).nodup hSnodup
  have hev : evictStep c' =
      c'.filter (fun p => decide (p.1 ∉ (sortNat (c'.map Prod.fst)).take 10)) := by
    rw [evictStep, if_pos htr]
  refine ⟨?_, ?_, hlow_len, ?_⟩
  · -- length: the filter drops exactly the 10 entries at the low keys
    rw [hev]
    have hsplit := @List.length_eq_length_filter_add _ c'
      (fun p => decide (p.1 ∉ (sortNat (c'.map Prod.fst)).take 10))
    have hfneg :
        (c'.filter (fun p =>
          !(decide (p.1 ∉ (sortNat (c'.map Prod.fst)).take 10)))) =
        c'.filter (fun p => decide (p.1 ∈ (sortNat (c'.map Prod.fst)).take 10)) := by
      apply List.filter_congr
      intro p _
      simp [decide_not]
    have hcnt :
        (c'.filter (fun p => decide (p.1 ∈ (sortNat (c'.map Prod.fst)).take 10))).length
          = 10 := by
      rw [filter_fst_length c' (fun h => decide (h ∈ (sortNat (c'.map Prod.fst)).take 10))]
      have hpf : List.Perm ((c'.map Prod.fst).filter
            (fun h => decide (h ∈ (sortNat (c'.map Prod.fst)).take 10)))
          ((sortNat (c'.map Prod.fst)).take 10) := by
        rw [List.perm_ext_iff_of_nodup (hnd.filter _) hlow_nodup]
        intro a
        simp only [List.mem_filter, decide_eq_true_eq]
        exact ⟨fun ⟨_, h2⟩ => h2, fun h => ⟨hlow_sub a h, h⟩⟩
      rw [hpf.length_eq, hlow_len]
    rw [hfneg, hcnt] at hsplit
    omega
  · intro p hp
    rw [hev]
    simp [List.mem_filter, hp]
  · intro h hmem h' hK' hnot
    have hh' : h' ∈ (sortNat (c'.map Prod.fst)) := hperm.mem_iff.mpr hK'
    have hsplit2 : h' ∈ (sortNat (c'.map Prod.fst)).take 10 ++
        (sortNat (c'.map Prod.fst)).drop 10 := by
      rw [List.take_append_drop]
      exact hh'
    have hdrop : h' ∈ (sortNat (c'.map Prod.fst)).drop 10 := by
      rcases List.mem_append.mp hsplit2 with h1 | h2
      · exact absurd h1 hnot
      · exact h2
    have hle : h ≤ h' := hSsorted.rel_of_mem_take_of_mem_drop hmem hdrop
    have hne : h ≠ h' := by
      intro he
      subst he
      exact hnot hmem
    exact lt_of_le_of_ne hle hne

/-- C2: after any insertion into the block cache (keys distinct, at most 100
entries beforehand), the cache holds at most 100 entries once the eviction step
has run; and whenever eviction triggers (more than 100 entries present after
the insert), exactly the entries at the 10 numerically smallest heights are
removed — each kept entry's height is strictly above every removed height. -/
theorem claim_C2_blockCache_bound_and_eviction (cache : List (Nat × Block)) (b : Block)
    (hnd : (cache.map Prod.fst).Nodup) (hlen : cache.length ≤ BLOCKS_CACHE_MAX_SIZE) :
    (blocksCachePut cache b).length ≤ BLOCKS_CACHE_MAX_SIZE ∧
    (BLOCKS_CACHE_MAX_SIZE < (insertBlock cache b).length →
      (∀ p ∈ insertBlock cache b,
        (p ∈ blocksCachePut cache b ↔
          p.1 ∉ (sortNat ((insertBlock cache b).map Prod.fst)).take 10)) ∧
      ((sortNat ((insertBlock cache b).map Prod.fst)).take 10).length = 10 ∧
      (∀ h ∈ (sortNat ((insertBlock cache b).map Prod.fst)).take 10,
        ∀ h', h' ∈ (insertBlock cache b).map Prod.fst →
          h' ∉ (sortNat ((insertBlock cache b).map Prod.fst)).take 10 → h < h')) := by
  have hnd' := insertBlock_keys_nodup cache b hnd
  have hle := insertBlock_length_le cache b
  have hMax : BLOCKS_CACHE_MAX_SIZE = 100 := rfl
  by_cases htr : BLOCKS_CACHE_MAX_SIZE < (insertBlock cache b).length
  · obtain ⟨h1, h2, h3, h4⟩ := evict_core (insertBlock cache b) hnd' htr
    refine ⟨?_, fun _ => ⟨h2, h3, h4⟩⟩
    rw [blocksCachePut, h1]
    omega
  · refine ⟨?_, fun h => absurd h htr⟩
    rw [blocksCachePut, evictStep, if_neg htr]
    omega

/-- Witness for C2 at a one-entry cache. -/
theorem claim_C2_witness :
    (blocksCachePut [(5, ⟨5, 0, []⟩)] ⟨7, 1, []⟩).length ≤ BLOCKS_CACHE_MAX_SIZE ∧
    (BLOCKS_CACHE_MAX_SIZE < (insertBlock [(5, ⟨5, 0, []⟩)] ⟨7, 1, []⟩).length →
      (∀ p ∈ insertBlock [(5, ⟨5, 0, []⟩)] ⟨7, 1, []⟩,
        (p ∈ blocksCachePut [(5, ⟨5, 0, []⟩)] ⟨7, 1, []⟩ ↔
          p.1 ∉ (sortNat ((insertBlock [(5, ⟨5, 0, []⟩)] ⟨7, 1, []⟩).map Prod.fst)).take 10)) ∧
      ((sortNat ((insertBlock [(5, ⟨5, 0, []⟩)] ⟨7, 1, []⟩).map Prod.fst)).take 10).length = 10 ∧
      (∀ h ∈ (sortNat ((insertBlock [(5, ⟨5, 0, []⟩)] ⟨7, 1, []⟩).map Prod.fst)).take 10,
        ∀ h', h' ∈ (insertBlock [(5, ⟨5, 0, []⟩)] ⟨7, 1, []⟩).map Prod.fst →
          h' ∉ (sortNat ((insertBlock [(5, ⟨5, 0, []⟩)] ⟨7, 1, []⟩).map Prod.fst)).take 10 →
          h < h')) :=
  claim_C2_blockCache_bound_and_eviction [(5, ⟨5, 0, []⟩)] ⟨7, 1, []⟩ (by decide) (by decide)

/-! ## The single-flight guard (C1, C8) -/

/-- `$fetchChannelOpenTx` never touches the `running` flag. -/
theorem fetchChannelOpenTx_running (env : Env) (st : FetcherState) (channelId : Str) :
    (fetchChannelOpenTx env st channelId).st.running = st.running := by
  unfold fetchChannelOpenTx
  dsimp only
  repeat' split
  all_goals rfl

/-- One loop iteration never touches the `running` flag. -/
theorem loopStep_running (env : Env) (clock : Clock) (ls : LoopSt) (channelId : Str) :
    ((loopStep env clock ls channelId).1).st.running = ls.st.running := by
  unfold loopStep
  dsimp only
  repeat' split
  all_goals simp [fetchChannelOpenTx_running]

/-- The batch loop never touches the `running` flag. -/
theorem batchLoop_running (env : Env) (clock : Clock) (channelIds : List Str) (ls : LoopSt) :
    ((batchLoop env clock channelIds ls).1).st.running = ls.st.running := by
  induction channelIds generalizing ls with
  | nil => rfl
  | cons channelId rest ih =>
    unfold batchLoop
    dsimp only
    split
    · exact loopStep_running env clock ls channelId
    · rw [ih]
      exact loopStep_running env clock ls channelId

/-- An RPC environment whose every call throws. -/
def envErr : Env where
  normalize := fun s => s
  getBlockHash := fun _ => .error ()
  getBlock := fun _ => .error ()
  getRawTransaction := fun _ => .error ()
  getRawTransactionVerbose := fun _ => .error ()
  decodeRawTransaction := fun _ => .error ()
  getAddressTxs := fun _ => .error ()
  getRawMempool := .error ()
  loggerUpdateInterval := 30

/-- C1 counterexample: a batch over one uncached id whose block-hash RPC call
throws exits by exception with the guard still set — `running` is not false on
that exit, so one failing item does wedge the orchestrator. -/
theorem claim_C1_counterexample :
    (fetchChannelsFundingTxs envErr clkZero stEmpty [['1']]).threw = true ∧
    (fetchChannelsFundingTxs envErr clkZero stEmpty [['1']]).st.running = true :=
  ⟨rfl, rfl⟩

/-- C1 (amended): starting from an idle state, `running` is false on exit
exactly when no per-item resolution threw; when one throws, the call exits by
exception with `running` still true (there is no guaranteed-cleanup path). -/
theorem claim_C1_guard_cleared_only_without_throw
    (env : Env) (clock : Clock) (st : FetcherState) (channelIds : List Str)
    (hidle : st.running = false) :
    ((fetchChannelsFundingTxs env clock st channelIds).threw = false →
      (fetchChannelsFundingTxs env clock st channelIds).st.running = false) ∧
    ((fetchChannelsFundingTxs env clock st channelIds).threw = true →
      (fetchChannelsFundingTxs env clock st channelIds).st.running = true) := by
  unfold fetchChannelsFundingTxs
  split
  · next hrun0 =>
      rw [hidle] at hrun0
      exact absurd hrun0 (by simp)
  · dsimp only
    split
    · refine ⟨fun h => by simp at h, fun _ => ?_⟩
      show (batchLoop env clock channelIds (initLoopSt clock st)).1.st.running = true
      rw [batchLoop_running env clock channelIds (initLoopSt clock st)]
      rfl
    · exact ⟨fun _ => rfl, fun h => by simp at h⟩

/-- Witness for the amended C1 on a concrete completing batch. -/
theorem claim_C1_witness :
    ((fetchChannelsFundingTxs envA clkZero stEmpty []).threw = false →
      (fetchChannelsFundingTxs envA clkZero stEmpty []).st.running = false) ∧
    ((fetchChannelsFundingTxs envA clkZero stEmpty []).threw = true →
      (fetchChannelsFundingTxs envA clkZero stEmpty []).st.running = true) :=
  claim_C1_guard_cleared_only_without_throw envA clkZero stEmpty [] (by rfl)

/-- C8: calling `$fetchChannelsFundingTxs` while `running` is already set
returns immediately and changes nothing: the state (all caches, the snapshot,
the counter) is returned untouched, no checkpoint event happens, and no final
flush is written. -/
theorem claim_C8_second_call_noop
    (env : Env) (clock : Clock) (st : FetcherState) (channelIds : List Str)
    (h : st.running = true) :
    fetchChannelsFundingTxs env clock st channelIds = ⟨st, [], none, false⟩ := by
  unfold fetchChannelsFundingTxs
  rw [h]
  rfl

/-- Witness for C8 at a concretely running state. -/
theorem claim_C8_witness :
    fetchChannelsFundingTxs envA clkZero ⟨true, [], 0, [], []⟩ [['1']] =
      ⟨⟨true, [], 0, [], []⟩, [], none, false⟩ :=
  claim_C8_second_call_noop envA clkZero ⟨true, [], 0, [], []⟩ [['1']] (by rfl)

/-! ## Flushing behaviour of the batch driver (C6, C7) -/

/-- The wallet monitor never touches the newly-processed counter. -/
theorem monitorLightningWallet_counter (env : Env) (st : FetcherState) :
    (monitorLightningWallet env st).channelNewlyProcessed = st.channelNewlyProcessed := by
  unfold monitorLightningWallet
  split <;> rfl

/-- Shape of a completing (non-throwing) driver call. -/
theorem driver_complete (env : Env) (clock : Clock) (st : FetcherState) (ids : List Str)
    (hidle : st.running = false)
    (hnothrow : (batchLoop env clock ids (initLoopSt clock st)).2 = false) :
    fetchChannelsFundingTxs env clock st ids =
      ⟨{ monitorLightningWallet env (batchLoop env clock ids (initLoopSt clock st)).1.st with
          running := false },
       (batchLoop env clock ids (initLoopSt clock st)).1.checks,
       (if 0 < (batchLoop env clock ids (initLoopSt clock st)).1.st.channelNewlyProcessed
        then some (batchLoop env clock ids (initLoopSt clock st)).1.st.fundingTxCache else none),
       false⟩ := by
  unfold fetchChannelsFundingTxs
  split
  · next h => rw [hidle] at h; exact absurd h (by simp)
  · dsimp only
    rw [if_neg (by simp [hnothrow])]

/-- Shape of a throwing driver call. -/
theorem driver_threw (env : Env) (clock : Clock) (st : FetcherState) (ids : List Str)
    (hidle : st.running = false)
    (hthrow : (batchLoop env clock ids (initLoopSt clock st)).2 = true) :
    fetchChannelsFundingTxs env clock st ids =
      ⟨(batchLoop env clock ids (initLoopSt clock st)).1.st,
       (batchLoop env clock ids (initLoopSt clock st)).1.checks, none, true⟩ := by
  unfold fetchChannelsFundingTxs
  split
  · next h => rw [hidle] at h; exact absurd h (by simp)
  · dsimp only
    rw [if_pos hthrow]

/-- A cache-hit iteration never throws and leaves the fetcher state unchanged. -/
theorem loopStep_hit_st (env : Env) (clock : Clock) (ls : LoopSt) (channelId : Str)
    (v : CacheVal)
    (hv : assocFind ls.st.fundingTxCache (env.normalize channelId) = some v) :
    (loopStep env clock ls channelId).2 = false ∧
    (loopStep env clock ls channelId).1.st = ls.st := by
  have hres : fetchChannelOpenTx env ls.st channelId = ⟨ls.st, [], some (some v)⟩ :=
    resolve_cacheHit env ls.st channelId v hv
  unfold loopStep
  rw [hres]
  dsimp only
  repeat' split
  all_goals exact ⟨rfl, rfl⟩

/-- A cache-hit iteration whose checkpoint test cannot fire also keeps the
checkpoint timer and adds only a non-flushing check event. -/
theorem loopStep_hit_noflush (env : Env) (clock : Clock) (ls : LoopSt) (channelId : Str)
    (v : CacheVal)
    (hv : assocFind ls.st.fundingTxCache (env.normalize channelId) = some v)
    (hno : ∀ k, ¬ (roundJS (clock k - ls.cacheTimer) > 60)) :
    (loopStep env clock ls channelId).2 = false ∧
    (loopStep env clock ls channelId).1.st = ls.st ∧
    (loopStep env clock ls channelId).1.cacheTimer = ls.cacheTimer ∧
    ∃ ev, (loopStep env clock ls channelId).1.checks = ls.checks ++ [ev] ∧
      ev.flushed = false := by
  have hres : fetchChannelOpenTx env ls.st channelId = ⟨ls.st, [], some (some v)⟩ :=
    resolve_cacheHit env ls.st channelId v hv
  unfold loopStep
  rw [hres]
  dsimp only
  split
  · rw [if_neg (hno _)]
    exact ⟨rfl, rfl, rfl, ⟨_, rfl, rfl⟩⟩
  · rw [if_neg (hno _)]
    exact ⟨rfl, rfl, rfl, ⟨_, rfl, rfl⟩⟩

/-- A batch whose every id hits the funding-tx cache completes without a throw
and without changing the fetcher state. -/
theorem batchLoop_hits_st (env : Env) (clock : Clock) (st0 : FetcherState) (ids : List Str)
    (hhits : ∀ id ∈ ids, (assocFind st0.fundingTxCache (env.normalize id)).isSome = true) :
    ∀ ls, ls.st = st0 →
      (batchLoop env clock ids ls).1.st = st0 ∧ (batchLoop env clock ids ls).2 = false := by
  induction ids with
  | nil => intro ls h1; exact ⟨h1, rfl⟩
  | cons channelId rest ih =>
    intro ls h1
    obtain ⟨v, hv⟩ := Option.isSome_iff_exists.mp (hhits channelId (List.mem_cons_self _ _))
    have hv' : assocFind ls.st.fundingTxCache (env.normalize channelId) = some v := by
      rw [h1]; exact hv
    obtain ⟨hth, hst⟩ := loopStep_hit_st env clock ls channelId v hv'
    unfold batchLoop
    dsimp only
    rw [if_neg (by simp [hth])]
    exact ih (fun id hid => hhits id (List.mem_cons_of_mem _ hid))
      (loopStep env clock ls channelId).1 (hst.trans h1)

/-- A batch whose every id hits the cache, run under a clock that stays within
the checkpoint interval of the `cacheTimer` start, performs no checkpoint
flush at all. -/
theorem batchLoop_hits_noflush (env : Env) (clock : Clock) (st0 : FetcherState) (ids : List Str)
    (hhits : ∀ id ∈ ids, (assocFind st0.fundingTxCache (env.normalize id)).isSome = true)
    (hclk : ∀ k, roundJS (clock k - clock 1) ≤ 60) :
    ∀ ls, ls.st = st0 → ls.cacheTimer = clock 1 →
      List.filter (fun c => c.flushed) ls.checks = [] →
      (batchLoop env clock ids ls).2 = false ∧
      List.filter (fun c => c.flushed) ((batchLoop env clock ids ls).1.checks) = [] := by
  induction ids with
  | nil => intro ls _ _ h3; exact ⟨rfl, h3⟩
  | cons channelId rest ih =>
    intro ls h1 h2 h3
    obtain ⟨v, hv⟩ := Option.isSome_iff_exists.mp (hhits channelId (List.mem_cons_self _ _))
    have hv' : assocFind ls.st.fundingTxCache (env.normalize channelId) = some v := by
      rw [h1]; exact hv
    have hno : ∀ k, ¬ (roundJS (clock k - ls.cacheTimer) > 60) := by
      intro k
      rw [h2]
      exact not_lt.mpr (hclk k)
    obtain ⟨hth, hst, htm, ev, hchk, hfl⟩ :=
      loopStep_hit_noflush env clock ls channelId v hv' hno
    unfold batchLoop
    dsimp only
    rw [if_neg (by simp [hth])]
    refine ih (fun id hid => hhits id (List.mem_cons_of_mem _ hid))
      (loopStep env clock ls channelId).1 (hst.trans h1) (htm.trans h2) ?_
    rw [hchk, List.filter_append, h3, List.nil_append]
    simp [hfl]

/-- A clock that jumps by 100 seconds after the timers were initialized. -/
def clkJump : Clock := fun k => if k ≤ 3 then 0 else 100000

/-- C6 counterexample: a batch consisting entirely of cache hits is not
flush-free as claimed — when more than the checkpoint interval elapses during
the (all-hit) run, the 60-second checkpoint still fires, so the batch performs
a flush even though nothing new was resolved. -/
theorem claim_C6_counterexample :
    (assocFind stHit.fundingTxCache (envA.normalize "abc".toList)).isSome = true ∧
    checkpointFlushes (fetchChannelsFundingTxs envA clkJump stHit ["abc".toList]) ≠ [] := by
  constructor
  · rfl
  · decide

/-- C6 (amended): for every completed batch from an idle state, the final flush
happens if and only if the per-run newly-processed counter is positive; a batch
that is 100% cache hits performs no final flush, and performs no checkpoint
flush either provided every clock reading stays within the 60-second checkpoint
interval of the timer start. -/
theorem claim_C6_final_flush_iff_new_records
    (env : Env) (clock : Clock) (st : FetcherState) (ids : List Str)
    (hidle : st.running = false)
    (hdone : (fetchChannelsFundingTxs env clock st ids).threw = false) :
    ((fetchChannelsFundingTxs env clock st ids).finalFlush.isSome = true ↔
      0 < (fetchChannelsFundingTxs env clock st ids).st.channelNewlyProcessed) ∧
    ((∀ id ∈ ids, (assocFind st.fundingTxCache (env.normalize id)).isSome = true) →
      (fetchChannelsFundingTxs env clock st ids).finalFlush = none ∧
      ((∀ k, roundJS (clock k - clock 1) ≤ 60) →
        checkpointFlushes (fetchChannelsFundingTxs env clock st ids) = [])) := by
  have hlr : (batchLoop env clock ids (initLoopSt clock st)).2 = false := by
    by_contra hc
    rw [driver_threw env clock st ids hidle (by simpa using hc)] at hdone
    simp at hdone
  rw [driver_complete env clock st ids hidle hlr]
  constructor
  · dsimp only
    rw [monitorLightningWallet_counter]
    by_cases hc : 0 < (batchLoop env clock ids (initLoopSt clock st)).1.st.channelNewlyProcessed
    · simp [hc]
    · simp [hc]
  · intro hhits
    have hhits0 : ∀ id ∈ ids,
        (assocFind (initLoopSt clock st).st.fundingTxCache (env.normalize id)).isSome = true :=
      hhits
    have hstloop := batchLoop_hits_st env clock (initLoopSt clock st).st ids hhits0
      (initLoopSt clock st) rfl
    have hcnt : (batchLoop env clock ids (initLoopSt clock st)).1.st.channelNewlyProcessed = 0 := by
      rw [hstloop.1]
      rfl
    constructor
    · dsimp only
      rw [hcnt]
      rfl
    · intro hclk
      have hnof := batchLoop_hits_noflush env clock (initLoopSt clock st).st ids hhits0 hclk
        (initLoopSt clock st) rfl rfl rfl
      exact hnof.2

/-- Witness for the amended C6: a one-item all-hit batch under a constant clock. -/
theorem claim_C6_witness :
    ((fetchChannelsFundingTxs envA clkZero stHit ["abc".toList]).finalFlush.isSome = true ↔
      0 < (fetchChannelsFundingTxs envA clkZero stHit ["abc".toList]).st.channelNewlyProcessed) ∧
    ((∀ id ∈ ["abc".toList], (assocFind stHit.fundingTxCache (envA.normalize id)).isSome = true) →
      (fetchChannelsFundingTxs envA clkZero stHit ["abc".toList]).finalFlush = none ∧
      ((∀ k, roundJS (clkZero k - clkZero 1) ≤ 60) →
        checkpointFlushes (fetchChannelsFundingTxs envA clkZero stHit ["abc".toList]) = [])) :=
  claim_C6_final_flush_iff_new_records envA clkZero stHit ["abc".toList] (by rfl) (by rfl)

/-! ## The checkpoint cadence (C7) -/

/-- The checkpoint-timer bookkeeping along the recorded per-item checks: the
first check compares against `t0` (the `cacheTimer` initialisation), and each
later check compares against the previous check's post-test timer value. -/
def timerChain (t0 : ℤ) : List CheckEv → Prop
  | [] => True
  | c :: cs => c.timerBefore = t0 ∧ timerChain c.resetTime cs

/-- The `cacheTimer` value after a chain of checks. -/
def chainEnd (t0 : ℤ) : List CheckEv → ℤ
  | [] => t0
  | c :: cs => chainEnd c.resetTime cs

theorem chainEnd_append (t0 : ℤ) (l : List CheckEv) (c : CheckEv) :
    chainEnd t0 (l ++ [c]) = c.resetTime := by
  induction l generalizing t0 with
  | nil => rfl
  | cons d ds ih => exact ih d.resetTime

theorem timerChain_append (t0 : ℤ) (l : List CheckEv) (c : CheckEv)
    (h : timerChain t0 l) (hc : c.timerBefore = chainEnd t0 l) :
    timerChain t0 (l ++ [c]) := by
  induction l generalizing t0 with
  | nil => exact ⟨hc, trivial⟩
  | cons d ds ih =>
    exact ⟨h.1, ih d.resetTime h.2 hc⟩

/-- The well-formedness facts about one recorded check event. -/
def checkOK (ch : CheckEv) : Prop :=
  (ch.flushed = true ↔ roundJS (ch.time - ch.timerBefore) > 60) ∧
  (ch.flushed = false → ch.resetTime = ch.timerBefore)

/-- One loop iteration either keeps the checks (a throw) or appends exactly one
well-formed check whose `timerBefore` is the current `cacheTimer` and whose
`resetTime` becomes the new `cacheTimer`. -/
theorem loopStep_check_shape (env : Env) (clock : Clock) (ls : LoopSt) (channelId : Str) :
    ((loopStep env clock ls channelId).1.checks = ls.checks ∧
      (loopStep env clock ls channelId).1.cacheTimer = ls.cacheTimer) ∨
    (∃ ev, (loopStep env clock ls channelId).1.checks = ls.checks ++ [ev] ∧
      ev.timerBefore = ls.cacheTimer ∧
      (loopStep env clock ls channelId).1.cacheTimer = ev.resetTime ∧ checkOK ev) := by
  unfold loopStep
  dsimp only
  cases hres : (fetchChannelOpenTx env ls.st channelId).ret with
  | none => exact Or.inl ⟨rfl, rfl⟩
  | some v =>
    dsimp only
    split
    · -- progress-log branch taken
      split
      · next hfl =>
          exact Or.inr ⟨_, rfl, rfl, rfl, ⟨fun _ => hfl, fun _ => rfl⟩, fun hab => by simp at hab⟩
      · next hnf =>
          exact Or.inr ⟨_, rfl, rfl, rfl,
            ⟨fun hab => by simp at hab, fun hcond => absurd hcond hnf⟩, fun _ => rfl⟩
    · split
      · next hfl =>
          exact Or.inr ⟨_, rfl, rfl, rfl, ⟨fun _ => hfl, fun _ => rfl⟩, fun hab => by simp at hab⟩
      · next hnf =>
          exact Or.inr ⟨_, rfl, rfl, rfl,
            ⟨fun hab => by simp at hab, fun hcond => absurd hcond hnf⟩, fun _ => rfl⟩

/-- The loop maintains the timer chain, the `cacheTimer = chainEnd` linkage and
the well-formedness of every recorded check. -/
theorem batchLoop_timerChain (env : Env) (clock : Clock) (ids : List Str) :
    ∀ ls t0, timerChain t0 ls.checks → ls.cacheTimer = chainEnd t0 ls.checks →
      (∀ ch ∈ ls.checks, checkOK ch) →
      timerChain t0 (batchLoop env clock ids ls).1.checks ∧
      (batchLoop env clock ids ls).1.cacheTimer =
        chainEnd t0 (batchLoop env clock ids ls).1.checks ∧
      (∀ ch ∈ (batchLoop env clock ids ls).1.checks, checkOK ch) := by
  induction ids with
  | nil => intro ls t0 h1 h2 h3; exact ⟨h1, h2, h3⟩
  | cons channelId rest ih =>
    intro ls t0 h1 h2 h3
    have hinv : timerChain t0 (loopStep env clock ls channelId).1.checks ∧
        (loopStep env clock ls channelId).1.cacheTimer =
          chainEnd t0 (loopStep env clock ls channelId).1.checks ∧
        (∀ ch ∈ (loopStep env clock ls channelId).1.checks, checkOK ch) := by
      rcases loopStep_check_shape env clock ls channelId with ⟨hck, htm⟩ | ⟨ev, hck, hb, htm, hok⟩
      · rw [hck, htm]
        exact ⟨h1, h2, h3⟩
      · rw [hck]
        refine ⟨timerChain_append t0 ls.checks ev h1 (hb.trans h2), ?_, ?_⟩
        · rw [chainEnd_append, htm]
        · intro ch hch
          rcases List.mem_append.mp hch with hch | hch
          · exact h3 ch hch
          · rw [List.mem_singleton.mp hch]
            exact hok
    unfold batchLoop
    dsimp only
    split
    · exact hinv
    · exact ih (loopStep env clock ls channelId).1 t0 hinv.1 hinv.2.1 hinv.2.2

/-- C7 (amended): in every driver run, the per-item checkpoint tests form a
chain starting at the `cacheTimer` initialisation (`clock 1`), and a checkpoint
flush fires at an item boundary exactly when the rounded elapsed seconds since
the last checkpoint (or batch start) exceed 60 — a purely time-driven test,
independent of whether new entries were added; when it does not fire, the timer
is left untouched, so the next boundary measures from the same origin. -/
theorem claim_C7_checkpoint_cadence (env : Env) (clock : Clock) (st : FetcherState)
    (ids : List Str) :
    timerChain (clock 1) (fetchChannelsFundingTxs env clock st ids).checks ∧
    ∀ ch ∈ (fetchChannelsFundingTxs env clock st ids).checks,
      (ch.flushed = true ↔ roundJS (ch.time - ch.timerBefore) > 60) ∧
      (ch.flushed = false → ch.resetTime = ch.timerBefore) := by
  by_cases hrun : st.running = true
  · unfold fetchChannelsFundingTxs
    rw [if_pos hrun]
    exact ⟨trivial, fun ch hch => absurd hch (List.not_mem_nil ch)⟩
  · have hidle : st.running = false := by simpa using hrun
    have hmain := batchLoop_timerChain env clock ids (initLoopSt clock st) (clock 1)
      trivial rfl (fun ch hch => absurd hch (List.not_mem_nil ch))
    cases hthr : (batchLoop env clock ids (initLoopSt clock st)).2 with
    | true =>
      rw [driver_threw env clock st ids hidle hthr]
      exact ⟨hmain.1, hmain.2.2⟩
    | false =>
      rw [driver_complete env clock st ids hidle hthr]
      exact ⟨hmain.1, hmain.2.2⟩

/-- Witness for the amended C7 on a run with one recorded (non-flushing) check. -/
theorem claim_C7_witness :
    timerChain (clkZero 1) (fetchChannelsFundingTxs envA clkZero stHit ["abc".toList]).checks ∧
    ∀ ch ∈ (fetchChannelsFundingTxs envA clkZero stHit ["abc".toList]).checks,
      (ch.flushed = true ↔ roundJS (ch.time - ch.timerBefore) > 60) ∧
      (ch.flushed = false → ch.resetTime = ch.timerBefore) :=
  claim_C7_checkpoint_cadence envA clkZero stHit ["abc".toList]

/-- `envA` with a logger interval so large the progress-log branch never runs. -/
def envQuiet : Env :=
  { envA with loggerUpdateInterval := 100000 }

/-- A clock advancing 300 ms per reading: with two readings per item, each item
costs 600 ms — negligible against the 60-second checkpoint interval. -/
def clkLinear : Clock := fun k => 300 * (k : ℤ)

set_option maxRecDepth 100000 in
/-- C7 counterexample: a 100-item batch of fast items (600 ms each, two clock
readings per item) spans 60.6 seconds of wall-clock time — more than 60 seconds
elapse — yet performs zero checkpoint flushes, because the rounded elapsed time
at every boundary check still evaluates to at most 60.  The claimed "at least
once per 60 seconds" cadence therefore fails as stated; the flush only fires
once the rounded elapsed seconds strictly exceed 60. -/
theorem claim_C7_counterexample :
    (fetchChannelsFundingTxs envQuiet clkLinear stHit
        (List.replicate 100 "abc".toList)).threw = false ∧
    (fetchChannelsFundingTxs envQuiet clkLinear stHit
        (List.replicate 100 "abc".toList)).checks.length = 100 ∧
    checkpointFlushes (fetchChannelsFundingTxs envQuiet clkLinear stHit
        (List.replicate 100 "abc".toList)) = [] ∧
    clkLinear 202 - clkLinear 0 = 60600 := by
  refine ⟨by decide, by decide, by decide, by decide⟩

/-! ## The wallet-monitor snapshot (C9) -/

/-- The amount `reduce` with defined values on every matching output computes
exactly the sum of the matching outputs' values, from any start. -/
theorem walletSumStep_fold (vout : List TxOut) :
    ∀ init : ℚ, (∀ o ∈ vout, matchesWallet o = true → o.value.isSome = true) →
      vout.foldl walletSumStep (some init) =
        some (init + ((vout.filter matchesWallet).map (fun o => o.value.getD 0)).sum) := by
  induction vout with
  | nil => intro init _; simp
  | cons o os ih =>
    intro init hdef
    have hos : ∀ o' ∈ os, matchesWallet o' = true → o'.value.isSome = true :=
      fun o' ho' => hdef o' (List.mem_cons_of_mem _ ho')
    cases hm : matchesWallet o with
    | false =>
      have hstep : walletSumStep (some init) o = some init := by
        unfold walletSumStep
        rw [hm]
        rfl
      simp only [List.foldl_cons, hstep, List.filter_cons, hm]
      exact ih init hos
    | true =>
      obtain ⟨v, hv⟩ := Option.isSome_iff_exists.mp
        (hdef o (List.mem_cons_self _ _) hm)
      have hstep : walletSumStep (some init) o = some (init + v) := by
        unfold walletSumStep
        rw [hm, hv]
        simp
      simp only [List.foldl_cons, hstep, List.filter_cons, hm]
      rw [ih (init + v) hos]
      simp [hv, add_assoc]

/-- `amountFold` as the claim's "sum of the matching outputs' values". -/
theorem amountFold_eq_sum (vout : List TxOut)
    (hdef : ∀ o ∈ vout, matchesWallet o = true → o.value.isSome = true) :
    amountFold vout =
      some (((vout.filter matchesWallet).map (fun o => o.value.getD 0)).sum) := by
  unfold amountFold
  rw [walletSumStep_fold vout 0 hdef]
  simp

/-- One mempool entry scans to `some`/`none` according to whether any decoded
output pays the watched address. -/
theorem scanMempoolEntry_eq (env : Env) (txid : Str) (details : MempoolMeta)
    (raw : Str) (vout : List TxOut)
    (hraw : env.getRawTransactionVerbose txid = .ok raw)
    (hdec : env.decodeRawTransaction raw = .ok (some ⟨some vout⟩)) :
    scanMempoolEntry env txid details =
      .ok (if vout.any matchesWallet then
            some ⟨txid, amountFold vout, details.fee, details.vsize⟩
          else none) := by
  unfold scanMempoolEntry
  simp only [hraw, hdec]
  split <;> simp_all

/-- The scan loop produces exactly the matching entries, in mempool order. -/
theorem scanEntries_eq (env : Env) (entries : List (Str × MempoolMeta))
    (V : Str → List TxOut)
    (hdec : ∀ p ∈ entries, ∃ raw, env.getRawTransactionVerbose p.1 = .ok raw ∧
        env.decodeRawTransaction raw = .ok (some ⟨some (V p.1)⟩)) :
    scanEntries env entries =
      .ok ((entries.filter (fun p => (V p.1).any matchesWallet)).map
        (fun p => ⟨p.1, amountFold (V p.1), p.2.fee, p.2.vsize⟩)) := by
  induction entries with
  | nil => rfl
  | cons p rest ih =>
    obtain ⟨txid, details⟩ := p
    obtain ⟨raw, hraw, hdecp⟩ := hdec (txid, details) (List.mem_cons_self _ _)
    have hrest := ih (fun q hq => hdec q (List.mem_cons_of_mem _ hq))
    unfold scanEntries
    rw [scanMempoolEntry_eq env txid details raw (V txid) hraw hdecp, hrest]
    cases hm : (V txid).any matchesWallet with
    | false => simp [List.filter_cons, hm]
    | true => simp [List.filter_cons, hm]

/-- C9: after a successful wallet-monitor refresh, `walletMempoolTxs` contains
exactly the mempool entries whose decoded transaction has an output paying the
watched address, each carrying the sum of the matching outputs' values together
with the entry's fee and vsize; the result does not depend on the previous
snapshot (full replacement, not a merge); and a scan that throws leaves the
whole state — the previous snapshot included — unchanged. -/
theorem claim_C9_wallet_monitor
    (env : Env) (st : FetcherState) (entries : List (Str × MempoolMeta))
    (conf : List Str) (V : Str → List TxOut)
    (hconf : env.getAddressTxs MY_LIGHTNING_WALLET_ADDRESS = .ok conf)
    (hmem : env.getRawMempool = .ok entries)
    (hdec : ∀ p ∈ entries, ∃ raw, env.getRawTransactionVerbose p.1 = .ok raw ∧
        env.decodeRawTransaction raw = .ok (some ⟨some (V p.1)⟩))
    (hdef : ∀ p ∈ entries, ∀ o ∈ V p.1, matchesWallet o = true → o.value.isSome = true) :
    (monitorLightningWallet env st).walletMempoolTxs =
      (entries.filter (fun p => (V p.1).any matchesWallet)).map
        (fun p => ⟨p.1,
          some ((((V p.1).filter matchesWallet).map (fun o => o.value.getD 0)).sum),
          p.2.fee, p.2.vsize⟩) ∧
    (∀ env' st', walletScan env' = .error () → monitorLightningWallet env' st' = st') := by
  constructor
  · have hscan : walletScan env =
        .ok (conf, (entries.filter (fun p => (V p.1).any matchesWallet)).map
          (fun p => ⟨p.1, amountFold (V p.1), p.2.fee, p.2.vsize⟩)) := by
      unfold walletScan
      simp only [hconf, hmem, scanEntries_eq env entries V hdec]
    unfold monitorLightningWallet
    rw [hscan]
    dsimp only
    apply List.map_congr_left
    intro p hp
    have hpmem : p ∈ entries := List.mem_of_mem_filter hp
    rw [amountFold_eq_sum (V p.1) (hdef p hpmem)]
  · intro env' st' herr
    unfold monitorLightningWallet
    rw [herr]

/-- A concrete wallet-monitor environment: two mempool entries, the first
paying the watched address (one output of 7), the second unrelated. -/
def envW9 : Env where
  normalize := fun s => s
  getBlockHash := fun _ => .error ()
  getBlock := fun _ => .error ()
  getRawTransaction := fun _ => .error ()
  getRawTransactionVerbose := fun t =>
    if t = "m1".toList then .ok "r1".toList
    else if t = "m2".toList then .ok "r2".toList
    else .error ()
  decodeRawTransaction := fun r =>
    if r = "r1".toList then .ok (some ⟨some [⟨some 7, some [MY_LIGHTNING_WALLET_ADDRESS]⟩]⟩)
    else if r = "r2".toList then .ok (some ⟨some [⟨some 9, none⟩]⟩)
    else .error ()
  getAddressTxs := fun _ => .ok ["c1".toList]
  getRawMempool := .ok [("m1".toList, ⟨1, 100⟩), ("m2".toList, ⟨2, 200⟩)]
  loggerUpdateInterval := 30

/-- The decoded outputs of `envW9`'s two mempool transactions. -/
def outsW9 : Str → List TxOut := fun t =>
  if t = "m1".toList then [⟨some 7, some [MY_LIGHTNING_WALLET_ADDRESS]⟩] else [⟨some 9, none⟩]

/-- Witness for C9 on `envW9`. -/
theorem claim_C9_witness :
    (monitorLightningWallet envW9 stEmpty).walletMempoolTxs =
      ([("m1".toList, (⟨1, 100⟩ : MempoolMeta)), ("m2".toList, ⟨2, 200⟩)].filter
          (fun p => (outsW9 p.1).any matchesWallet)).map
        (fun p => ⟨p.1,
          some ((((outsW9 p.1).filter matchesWallet).map (fun o => o.value.getD 0)).sum),
          p.2.fee, p.2.vsize⟩) ∧
    (∀ env' st', walletScan env' = .error () → monitorLightningWallet env' st' = st') :=
  claim_C9_wallet_monitor envW9 stEmpty
    [("m1".toList, ⟨1, 100⟩), ("m2".toList, ⟨2, 200⟩)] ["c1".toList] outsW9
    (by rfl) (by rfl)
    (by
      intro p hp
      rcases List.mem_cons.mp hp with h | hp2
      · subst h
        exact ⟨"r1".toList, rfl, rfl⟩
      · rcases List.mem_cons.mp hp2 with h | h
        · subst h
          exact ⟨"r2".toList, rfl, rfl⟩
        · exact absurd h (List.not_mem_nil _))
    (by decide)

end FundingTxFetcher
